import Mathlib

/-
Verification development for the leon-legal-lens analysis engine
(src/src/components/TermsAnalyzer.tsx and src/src/utils/gptAnalysis.ts).

The engine is shallowly embedded: JavaScript strings become Lean `String`
(lists of characters), JSON values become the inductive `Json`, thrown
exceptions become `Except` or `Option` results, and the two effectful
boundaries (the HTTP fetch and JSON.parse of the response body) are
represented by an explicit `RemoteResponse` input that records whether the
endpoint answered with a success status, whether a message content string
was present, and the parse outcome of that content.  JSON numbers are
modelled as integers: every number any claim touches is an integer score.
-/

/-! ## JSON values (the result of JSON.parse on the response content) -/

/-- A parsed JSON value.  Object field lists are the result of JSON.parse,
so keys are unique.  Numbers are modelled as integers (see header note). -/
inductive Json where
  | null : Json
  | bool : Bool → Json
  | num : Int → Json
  | str : String → Json
  | arr : List Json → Json
  | obj : List (String × Json) → Json

/-- Property access `o.k` on a parsed JSON value: a field lookup on objects,
`undefined` (here `none`) on everything else. -/
def getField : Json → String → Option Json
  | Json.obj fields, k => (fields.find? (fun f => f.1 = k)).map (fun f => f.2)
  | _, _ => none

/-- JavaScript string conversion of a JSON value, as performed by a template
literal.  Arrays join their elements with commas; plain objects display as
"[object Object]".  (The JS quirk that null and undefined elements inside an
array join as empty strings is not modelled; no analyzed claim reaches it.) -/
def jsToString : Json → String
  | Json.null => "null"
  | Json.bool true => "true"
  | Json.bool false => "false"
  | Json.num n => toString n
  | Json.str s => s
  | Json.arr xs => String.intercalate "," (xs.attach.map (fun x => jsToString x.1))
  | Json.obj _ => "[object Object]"
decreasing_by
  have := List.sizeOf_lt_of_mem x.2
  simp only [Json.arr.sizeOf_spec]
  omega

/-- JavaScript string conversion of a possibly-undefined value:
`undefined` displays as the string "undefined". -/
def jsDisplay : Option Json → String
  | none => "undefined"
  | some j => jsToString j

/-! ## JavaScript String.prototype.trim -/

/-- Whitespace for the purposes of String.prototype.trim (ASCII part). -/
def isWhitespaceChar (c : Char) : Bool :=
  c = ' ' || c = '\t' || c = '\n' || c = '\r' || c = '\x0b' || c = '\x0c'

/-- Models JavaScript String.prototype.trim: strip whitespace from both ends. -/
def jsTrim (s : String) : String :=
  String.mk (((s.data.dropWhile isWhitespaceChar).reverse.dropWhile isWhitespaceChar).reverse)

/-! ## The regular-expression dialect used by the source

Every regex literal in the source (`riskPatterns` and the highlighter) is an
alternation of branches of exactly three shapes: a literal string, two
literals separated by `.*`, or two literals separated by `.?`.  The engine
below implements JavaScript matching semantics for exactly these shapes,
with the `g` and `i` flags: case-insensitive comparison, leftmost match
wins, branches tried left to right at each position, `.` matches anything
except a line terminator, `.*` and `.?` are greedy, and scanning resumes
immediately after each match. -/

/-- One branch of an alternation in a source regex literal. -/
inductive Pat where
  | lit : String → Pat
  | litStarLit : String → String → Pat
  | litOptLit : String → String → Pat

/-- Case-insensitive test that `p` is a leading part of `cs`
(the `i` flag lowers both sides). -/
def ciStarts : List Char → List Char → Bool
  | [], _ => true
  | _ :: _, [] => false
  | p :: ps, c :: cs => (p.toLower == c.toLower) && ciStarts ps cs

/-- `.` in a JavaScript regex matches any character except a line terminator. -/
def notNewline (c : Char) : Bool := !(c = '\n' || c = '\r')

/-- Length of the longest leading run of characters `.` can match. -/
def noNlRun : List Char → Nat
  | [] => 0
  | c :: cs => if notNewline c then noNlRun cs + 1 else 0

/-- Greedy search for the gap consumed by `.*`: the largest `k ≤ bound` such
that the closing literal matches right after a gap of `k` characters. -/
def starSearch (b : List Char) (cs : List Char) : Nat → Option Nat
  | 0 => if ciStarts b cs then some 0 else none
  | k + 1 => if ciStarts b (cs.drop (k + 1)) then some (k + 1) else starSearch b cs k

/-- Match one branch at the current position, returning the number of
characters consumed (JavaScript semantics for the three branch shapes). -/
def matchPat : Pat → List Char → Option Nat
  | Pat.lit s, cs => if ciStarts s.data cs then some s.data.length else none
  | Pat.litStarLit a b, cs =>
      if ciStarts a.data cs then
        let rest := cs.drop a.data.length
        match starSearch b.data rest (noNlRun rest) with
        | some k => some (a.data.length + k + b.data.length)
        | none => none
      else none
  | Pat.litOptLit a b, cs =>
      if ciStarts a.data cs then
        let rest := cs.drop a.data.length
        match rest with
        | c :: rest1 =>
            if notNewline c && ciStarts b.data rest1 then
              some (a.data.length + 1 + b.data.length)
            else if ciStarts b.data rest then some (a.data.length + b.data.length)
            else none
        | [] => if ciStarts b.data ([] : List Char) then some (a.data.length + b.data.length)
                else none
      else none

/-- Try the branches of an alternation left to right at the current position. -/
def matchPats : List Pat → List Char → Option Nat
  | [], _ => none
  | p :: ps, cs =>
      match matchPat p cs with
      | some n => some n
      | none => matchPats ps cs

/-- The scan of `String.prototype.match` with the `g` flag: walk the text
left to right, emit each leftmost match and resume right after it, advancing
one character past an empty match.  `fuel` is a structural termination
device and is always called with at least the length of the text, so it
never runs out before the text does. -/
def scanGo (re : List Pat) : Nat → List Char → List String
  | _, [] =>
      match matchPats re [] with
      | some _ => [""]
      | none => []
  | 0, _ :: _ => []
  | fuel + 1, c :: cs =>
      match matchPats re (c :: cs) with
      | some 0 => "" :: scanGo re fuel cs
      | some (n + 1) => String.mk ((c :: cs).take (n + 1)) :: scanGo re fuel (cs.drop n)
      | none => scanGo re fuel cs

/-- `text.match(re)` with the `g` flag, as the list of matched substrings
(the empty list standing for the `null` result, which the source only ever
tests for truthiness). -/
def jsMatch (re : List Pat) (text : String) : List String :=
  scanGo re text.data.length text.data

/-- `[...new Set(xs)]`: deduplicate by exact equality, keeping the first
occurrence of each element, in insertion order. -/
def jsSetDedup (xs : List String) : List String :=
  xs.foldl (fun acc x => if x ∈ acc then acc else acc ++ [x]) []

/-! ## The pattern catalog (`riskPatterns` in `fallbackAnalyze`) -/

/-- One detection rule: an alternation, a category, a severity. -/
structure Rule where
  pattern : List Pat
  category : String
  severity : String

/-- The fixed catalog, transcribed regex by regex from the source:
`/we may collect|we collect|collect.*data|personal information/gi` and so on,
eight rules in source order. -/
def riskPatterns : List Rule := [
  ⟨[Pat.lit "we may collect", Pat.lit "we collect", Pat.litStarLit "collect" "data",
    Pat.lit "personal information"], "Data Privacy", "high"⟩,
  ⟨[Pat.litOptLit "third" "party", Pat.litStarLit "share" "information",
    Pat.litStarLit "share" "data"], "Data Privacy", "high"⟩,
  ⟨[Pat.lit "cookies", Pat.lit "tracking", Pat.lit "analytics"], "Data Privacy", "medium"⟩,
  ⟨[Pat.lit "binding arbitration", Pat.litStarLit "waive" "rights", Pat.lit "you agree"],
    "Legal Rights", "high"⟩,
  ⟨[Pat.lit "no refund", Pat.litOptLit "non" "refundable", Pat.lit "final sale",
    Pat.litStarLit "all sales" "final"], "Refunds & Payments", "high"⟩,
  ⟨[Pat.litStarLit "terminate" "account", Pat.litStarLit "suspend" "service"],
    "Legal Rights", "medium"⟩,
  ⟨[Pat.litStarLit "modify" "terms", Pat.litStarLit "change" "agreement"],
    "User Control", "low"⟩,
  ⟨[Pat.litStarLit "liability" "limited", Pat.lit "not responsible", Pat.lit "as is"],
    "Legal Rights", "high"⟩]

/-! ## The rule-based classifier (`fallbackAnalyze`) -/

/-- One entry of the `foundIssues` accumulator. -/
structure Issue where
  text : String
  category : String
  severity : String

/-- The three display buckets of an analysis result. -/
structure Categories where
  givingUp : List String
  risks : List String
  payments : List String

/-- The normalized result of either analysis path.  `shadinessScore` is an
`Option Int` because on the remote path arithmetic on a missing score field
produces NaN, modelled as `none`.  `gptAnalysis` records remote provenance
(`none` on the rule-based path, exactly as the optional field is absent). -/
structure AnalysisResult where
  shadinessScore : Option Int
  reasoning : String
  categories : Categories
  riskyPhrases : List String
  gptAnalysis : Option (Json × Option Int)

/-- The mutable state of the `riskPatterns.forEach` loop. -/
structure FoldState where
  shadinessScore : Nat
  foundIssues : List Issue
  categories : Categories

/-- `severity === 'high' ? 25 : severity === 'medium' ? 15 : 10`. -/
def riskValueOf (severity : String) : Nat :=
  if severity = "high" then 25 else if severity = "medium" then 15 else 10

/-- Exact test that `p` is a leading part of `cs`. -/
def startsList : List Char → List Char → Bool
  | [], _ => true
  | _ :: _, [] => false
  | p :: ps, c :: cs => (p == c) && startsList ps cs

/-- Contiguous-substring test (JavaScript String.prototype.includes). -/
def includesList (needle : List Char) : List Char → Bool
  | [] => needle.isEmpty
  | c :: cs => startsList needle (c :: cs) || includesList needle cs

/-- `m.toLowerCase().includes(sub)` for a lowercase literal `sub`. -/
def lcIncludes (m sub : String) : Bool :=
  includesList sub.data (m.data.map Char.toLower)

/-- The canned sentence pushed for a Data Privacy match. -/
def givingUpSentence (m : String) : String :=
  "Your " ++ (if lcIncludes m "data" then "personal data" else "information")
    ++ " may be collected or shared"

/-- The canned sentence pushed for a Refunds & Payments match. -/
def paymentsSentence (m : String) : String :=
  if lcIncludes m "refund" then "Limited or no refunds" else "Restrictive payment terms"

/-- The canned sentence pushed for every other match. -/
def risksSentence (m : String) : String :=
  "You may " ++ (if lcIncludes m "agree" then "waive certain legal rights"
                 else "face account limitations")

/-- The body of `uniqueMatches.forEach`: record the issue, add the severity
weight to the running score, and push the canned sentence into the bucket
selected by the category of the rule. -/
def applyMatch (rule : Rule) (st : FoldState) (m : String) : FoldState :=
  let st1 : FoldState :=
    { st with foundIssues := st.foundIssues ++ [⟨m, rule.category, rule.severity⟩],
              shadinessScore := st.shadinessScore + riskValueOf rule.severity }
  if rule.category = "Data Privacy" then
    { st1 with categories.givingUp := st1.categories.givingUp ++ [givingUpSentence m] }
  else if rule.category = "Refunds & Payments" then
    { st1 with categories.payments := st1.categories.payments ++ [paymentsSentence m] }
  else
    { st1 with categories.risks := st1.categories.risks ++ [risksSentence m] }

/-- The body of `riskPatterns.forEach`: match the rule against the text,
skip when `text.match` returned null, otherwise score each element of
`[...new Set(matches)]`. -/
def applyRule (text : String) (st : FoldState) (rule : Rule) : FoldState :=
  if (jsMatch rule.pattern text).isEmpty then st
  else (jsSetDedup (jsMatch rule.pattern text)).foldl (applyMatch rule) st

/-- `fallbackAnalyze`: the rule-based classifier.  Runs the catalog over the
text, deduplicates the bucket sentences, clamps the score with
`Math.min(100, ...)`, and assembles the result. -/
def fallbackAnalyze (text : String) : AnalysisResult :=
  let st := riskPatterns.foldl (applyRule text) ⟨0, [], ⟨[], [], []⟩⟩
  let categories : Categories :=
    ⟨jsSetDedup st.categories.givingUp, jsSetDedup st.categories.risks,
     jsSetDedup st.categories.payments⟩
  let finalScore := min 100 st.shadinessScore
  { shadinessScore := some (finalScore : Int),
    reasoning :=
      if st.foundIssues.length > 0 then
        "Found " ++ toString st.foundIssues.length ++ " concerning phrases across "
          ++ toString (jsSetDedup (st.foundIssues.map (fun i => i.category))).length
          ++ " categories"
      else "No major issues detected",
    categories := categories,
    riskyPhrases := st.foundIssues.map (fun i => i.text),
    gptAnalysis := none }

/-- The severity-weighted contribution of one rule: one unit per surviving
(exact-identity deduplicated) match. -/
def ruleScore (text : String) (r : Rule) : Nat :=
  (jsSetDedup (jsMatch r.pattern text)).length * riskValueOf r.severity

/-- The raw (unclamped) accumulated score over the whole catalog. -/
def rawScore (text : String) : Nat :=
  (riskPatterns.map (ruleScore text)).sum

/-! ## The remote analysis adapter (`analyzeWithGPT`)

The fetch and the JSON.parse of the completion content are the two effectful
boundaries; their combined outcome is the `RemoteResponse` input below.
`ContentData.raw` stands for a content string that is not valid JSON
(JSON.parse throws on it); `ContentData.json` carries the parse result. -/

/-- The completion content as the adapter sees it after JSON.parse. -/
inductive ContentData where
  | raw : String → ContentData
  | json : Json → ContentData

/-- Outcome of the network call: HTTP success flag, status text, and
`data.choices[0]?.message?.content` (absent, unparseable, or parsed). -/
structure RemoteResponse where
  ok : Bool
  statusText : String
  content : Option ContentData

/-- The errors the adapter can throw. -/
inductive GPTError where
  | apiError : String → GPTError
  | noResponse : GPTError
  | parseError : GPTError

/-- The object the adapter returns: `{...result, score: adjustedScore}`.
The first component is the parsed result object, the second the adjusted
score (`none` models the NaN produced by arithmetic on a missing or
non-numeric score field). -/
def GPTResultJs : Type := Json × Option Int

/-- `result.phrases?.length || 0`: the length of an array or string phrases
field, and 0 otherwise.  (A plain object carrying its own numeric `length`
key is not modelled; no analyzed claim reaches it.) -/
def jsIssueCount (result : Json) : Nat :=
  match getField result "phrases" with
  | some (Json.arr ps) => ps.length
  | some (Json.str s) => s.data.length
  | _ => 0

/-- The score-adjustment heuristic applied to `result.score`: at least five
phrases add 10 clamped at 100, at most two subtract 15 clamped at 0,
otherwise the score passes through unchanged.  A missing or non-numeric
score field makes the arithmetic produce NaN (`none`); when the count is
3 or 4 such a value also passes through unchanged as a non-number. -/
def jsAdjustedScore (result : Json) : Option Int :=
  match getField result "score" with
  | some (Json.num n) =>
      if jsIssueCount result ≥ 5 then some (min 100 (n + 10))
      else if jsIssueCount result ≤ 2 then some (max 0 (n - 15))
      else some n
  | _ => none

/-- `analyzeWithGPT`: throw on a non-success status, throw when no content
came back, throw when JSON.parse fails on the content, and otherwise accept
the parsed value as-is (no field of the expected contract is validated) and
apply the score adjustment. -/
def analyzeWithGPT (resp : RemoteResponse) : Except GPTError GPTResultJs :=
  if !resp.ok then Except.error (GPTError.apiError resp.statusText)
  else
    match resp.content with
    | none => Except.error GPTError.noResponse
    | some (ContentData.raw _) => Except.error GPTError.parseError
    | some (ContentData.json result) => Except.ok (result, jsAdjustedScore result)

/-- Whether the adapter threw (used to state the failure conditions). -/
def remoteFailed (resp : RemoteResponse) : Bool :=
  match analyzeWithGPT resp with
  | Except.error _ => true
  | Except.ok _ => false

/-- Whether a field value is present and a JSON number. -/
def isNum : Option Json → Bool
  | some (Json.num _) => true
  | _ => false

/-- Whether a field value is present and a JSON string. -/
def isStr : Option Json → Bool
  | some (Json.str _) => true
  | _ => false

/-- The element list of a field value that is present and a JSON array. -/
def asArr : Option Json → Option (List Json)
  | some (Json.arr xs) => some xs
  | _ => none

/-- Whether a JSON value is a string. -/
def isStrJson : Json → Bool
  | Json.str _ => true
  | _ => false

/-- Whether a phrase object has the contract shape
`{text: string, reason: string, category: string}`. -/
def validPhrase (p : Json) : Bool :=
  isStr (getField p "text") && isStr (getField p "reason")
    && isStr (getField p "category")

/-- Modelled from the spec: the JSON contract the adapter is specified to
validate — `score: number`, `reasoning: string`, `phrases: array of objects
with string fields text, reason, category`, `summary: array of string`.
The source contains no such validator; this definition follows the words of
the spec so the adapter can be compared against it. -/
def validGPTJson (j : Json) : Bool :=
  isNum (getField j "score") && isStr (getField j "reasoning")
    && ((asArr (getField j "phrases")).map (fun ps => ps.all validPhrase)).getD false
    && ((asArr (getField j "summary")).map (fun ss => ss.all isStrJson)).getD false

/-! ## The orchestrator (`handleAnalyze`)

The three toasts become the `Notice` tag; the early return on empty input
becomes `Outcome.emptyInput`.  The inner try/catch covers both the adapter
call and the conversion of its result, so a successful adapter call whose
result object has no phrases array (making `gptResult.phrases.forEach`
throw) also falls back to the rule-based path with the degraded toast. -/

/-- The item string pushed into a bucket for one returned phrase. -/
def gptItem (phrase : Json) : String :=
  "\"" ++ jsDisplay (getField phrase "text") ++ "\" - "
    ++ jsDisplay (getField phrase "reason")

/-- The switch on `phrase.category`: the four enumerated values route to the
three buckets; anything else falls through the default and is dropped. -/
def gptBucket (cats : Categories) (phrase : Json) : Categories :=
  match getField phrase "category" with
  | some (Json.str c) =>
      if c = "Data Privacy" then { cats with givingUp := cats.givingUp ++ [gptItem phrase] }
      else if c = "Legal Rights" then { cats with risks := cats.risks ++ [gptItem phrase] }
      else if c = "User Control" then { cats with risks := cats.risks ++ [gptItem phrase] }
      else if c = "Refunds & Payments" then
        { cats with payments := cats.payments ++ [gptItem phrase] }
      else cats
  | _ => cats

/-- `gptResult.phrases.forEach(...)`: fold the switch over the phrase list. -/
def gptCategories (ps : List Json) : Categories :=
  ps.foldl gptBucket ⟨[], [], []⟩

/-- The conversion of the adapter result into an `AnalysisResult`.  `none`
models the TypeError thrown by `gptResult.phrases.forEach` when the phrases
field is not an array; that throw is caught by the surrounding try/catch.
Non-string text and reason values are represented by their JavaScript
display strings. -/
def convertGPT (g : GPTResultJs) : Option AnalysisResult :=
  match getField g.1 "phrases" with
  | some (Json.arr ps) =>
      some { shadinessScore := g.2,
             reasoning := jsDisplay (getField g.1 "reasoning"),
             categories := gptCategories ps,
             riskyPhrases := ps.map (fun p => jsDisplay (getField p "text")),
             gptAnalysis := some g }
  | _ => none

/-- The toast shown to the caller. -/
inductive Notice where
  | gptSuccess : Notice
  | degraded : Notice
  | basicNoKey : Notice

/-- The outcome of one invocation of `handleAnalyze`. -/
inductive Outcome where
  | emptyInput : Outcome
  | done : AnalysisResult → Notice → Outcome

/-- `handleAnalyze`: guard empty input, prefer the remote path when a
trimmed API key is present (JavaScript truthiness of the trimmed string),
fall back to `fallbackAnalyze` with the degraded toast when the adapter or
the conversion of its result throws, and use the rule-based path with the
no-key toast when no key is given. -/
def handleAnalyze (termsText apiKey : String) (resp : RemoteResponse) : Outcome :=
  if jsTrim termsText = "" then Outcome.emptyInput
  else if jsTrim apiKey = "" then
    Outcome.done (fallbackAnalyze termsText) Notice.basicNoKey
  else
    match analyzeWithGPT resp with
    | Except.ok g =>
        match convertGPT g with
        | some result => Outcome.done result Notice.gptSuccess
        | none => Outcome.done (fallbackAnalyze termsText) Notice.degraded
    | Except.error _ => Outcome.done (fallbackAnalyze termsText) Notice.degraded

/-- The shadiness score carried by an outcome, when the outcome is a result. -/
def outcomeScore : Outcome → Option (Option Int)
  | Outcome.done r _ => some r.shadinessScore
  | Outcome.emptyInput => none

/-! ## The highlighter (`highlightText`) -/

/-- The character class of `phrase.replace(/[.*+?^${}()|[\]\\]/g, '\\$&')`. -/
def isRegexMeta (c : Char) : Bool :=
  c = '.' || c = '*' || c = '+' || c = '?' || c = '^' || c = '$' || c = '\x7b'
    || c = '\x7d' || c = '(' || c = ')' || c = '|' || c = '[' || c = ']' || c = '\\'

/-- The escape step: put a backslash in front of every regex metacharacter. -/
def escapeRegExp (p : String) : String :=
  String.mk (p.data.foldr (fun c acc => if isRegexMeta c then '\\' :: c :: acc else c :: acc) [])

/-- Interpretation of an escaped pattern body as a regex: a backslash makes
the next character a literal; a bare metacharacter means the pattern is not
a pure literal (`none`); any other character stands for itself. -/
def parseEscapedBody : List Char → Option (List Char)
  | [] => some []
  | c :: rest =>
      if c = '\\' then
        match rest with
        | c2 :: rest2 => (parseEscapedBody rest2).map (fun l => c2 :: l)
        | [] => none
      else if isRegexMeta c then none
      else (parseEscapedBody rest).map (fun l => c :: l)

/-- Models `new RegExp('(' + body + ')', 'gi')` for a body expected to
denote a literal string: the literal it matches, or `none` when a bare
metacharacter remains.  The surrounding capture group only makes `$1` the
whole match; it does not change the matched language. -/
def mkRegexLiteral (body : String) : Option (List Char) :=
  parseEscapedBody body.data

/-- The opening half of the replacement template
`'<mark class="bg-yellow-300 px-1 rounded">$1</mark>'`. -/
def markPre : String := "<mark class=\"bg-yellow-300 px-1 rounded\">"

/-- The closing half of the replacement template. -/
def markPost : String := "</mark>"

/-- Global replacement for an empty pattern: JavaScript finds an empty match
at every position including the end, so the replacement (with `$1` empty) is
inserted between all characters. -/
def emptyPatternReplace : List Char → List Char
  | [] => markPre.data ++ markPost.data
  | c :: cs => markPre.data ++ markPost.data ++ c :: emptyPatternReplace cs

/-- Global case-insensitive replacement of a nonempty literal: walk the
text, wrap each leftmost occurrence (in its original casing, which is what
`$1` captures) in the mark tags, and resume right after it.  `fuel` is a
structural termination device, always called with at least the length of
the text. -/
def replaceGo (lit : List Char) : Nat → List Char → List Char
  | _, [] => []
  | 0, l => l
  | fuel + 1, c :: cs =>
      if ciStarts lit (c :: cs) then
        markPre.data ++ (c :: cs).take lit.length ++ markPost.data
          ++ replaceGo lit fuel ((c :: cs).drop lit.length)
      else c :: replaceGo lit fuel cs

/-- `text.replace(regex, '<mark ...>$1</mark>')` for a literal regex. -/
def replaceAllCI (lit : List Char) (text : List Char) : List Char :=
  match lit with
  | [] => emptyPatternReplace text
  | _ :: _ => replaceGo lit text.length text

/-- `highlightText`: reads the component state `highlightRisky` in addition
to its two arguments; returns the text unchanged when the toggle is off or
no phrases were given, and otherwise folds the escape-compile-replace step
over the phrases in order.  The `none` branch of the compile step is
unreachable because escaping always yields a pure literal. -/
def highlightText (highlightRisky : Bool) (text : String) (phrases : List String) : String :=
  if !highlightRisky || phrases.isEmpty then text
  else
    phrases.foldl (fun acc phrase =>
      match mkRegexLiteral (escapeRegExp phrase) with
      | some lit => String.mk (replaceAllCI lit acc.data)
      | none => acc) text

/-- Modelled from the spec: highlighting that treats each phrase directly as
a literal string (the behavior the spec requires of the escaping), for
comparison with `highlightText`. -/
def literalHighlight (text : String) (phrases : List String) : String :=
  phrases.foldl (fun acc phrase => String.mk (replaceAllCI phrase.data acc.data)) text

/-! ## Concrete inputs used by counterexamples and witnesses -/

/-- A structurally valid remote payload whose raw score 150 lies outside
the 0..100 range, carrying exactly three phrases (so the adjustment
heuristic leaves the score untouched). -/
def j150 : Json := Json.obj [("score", Json.num 150), ("reasoning", Json.str "bad"),
  ("phrases", Json.arr [
    Json.obj [("text", Json.str "a"), ("reason", Json.str "ra"),
      ("category", Json.str "Data Privacy")],
    Json.obj [("text", Json.str "b"), ("reason", Json.str "rb"),
      ("category", Json.str "Legal Rights")],
    Json.obj [("text", Json.str "c"), ("reason", Json.str "rc"),
      ("category", Json.str "User Control")]]),
  ("summary", Json.arr [])]

/-- A successful remote response carrying `j150`. -/
def resp150 : RemoteResponse := ⟨true, "OK", some (ContentData.json j150)⟩

/-- A network failure: non-success status, no body content. -/
def respFail : RemoteResponse := ⟨false, "Service Unavailable", none⟩

/-- A success status with no completion content. -/
def respNoContent : RemoteResponse := ⟨true, "OK", none⟩

/-- Five structurally valid phrase objects, for the witness of the
score-increase branch of the adjustment heuristic. -/
def phrasesW7 : List Json :=
  [Json.obj [("text", Json.str "p1"), ("reason", Json.str "r1"),
     ("category", Json.str "Data Privacy")],
   Json.obj [("text", Json.str "p2"), ("reason", Json.str "r2"),
     ("category", Json.str "Legal Rights")],
   Json.obj [("text", Json.str "p3"), ("reason", Json.str "r3"),
     ("category", Json.str "User Control")],
   Json.obj [("text", Json.str "p4"), ("reason", Json.str "r4"),
     ("category", Json.str "Refunds & Payments")],
   Json.obj [("text", Json.str "p5"), ("reason", Json.str "r5"),
     ("category", Json.str "Data Privacy")]]

/-- A valid payload with raw score 95 and five phrases. -/
def jW7 : Json := Json.obj [("score", Json.num 95), ("reasoning", Json.str "many"),
  ("phrases", Json.arr phrasesW7), ("summary", Json.arr [Json.str "s"])]

/-- A successful remote response carrying `jW7`. -/
def respW7 : RemoteResponse := ⟨true, "OK", some (ContentData.json jW7)⟩

theorem applyMatch_shadinessScore (rule : Rule) (st : FoldState) (m : String) :
    (applyMatch rule st m).shadinessScore = st.shadinessScore + riskValueOf rule.severity := by
  unfold applyMatch
  split_ifs <;> rfl

theorem applyMatch_foundIssues (rule : Rule) (st : FoldState) (m : String) :
    (applyMatch rule st m).foundIssues
      = st.foundIssues ++ [⟨m, rule.category, rule.severity⟩] := by
  unfold applyMatch
  split_ifs <;> rfl

theorem foldl_applyMatch_score (rule : Rule) (ms : List String) (st : FoldState) :
    (ms.foldl (applyMatch rule) st).shadinessScore
      = st.shadinessScore + ms.length * riskValueOf rule.severity := by
  induction ms generalizing st with
  | nil => simp
  | cons m ms ih =>
      rw [List.foldl_cons, ih, applyMatch_shadinessScore, List.length_cons]
      ring

theorem foldl_applyMatch_issues (rule : Rule) (ms : List String) (st : FoldState) :
    (ms.foldl (applyMatch rule) st).foundIssues
      = st.foundIssues ++ ms.map (fun m => (⟨m, rule.category, rule.severity⟩ : Issue)) := by
  induction ms generalizing st with
  | nil => simp
  | cons m ms ih =>
      rw [List.foldl_cons, ih, applyMatch_foundIssues]
      simp

theorem applyRule_score (text : String) (st : FoldState) (r : Rule) :
    (applyRule text st r).shadinessScore = st.shadinessScore + ruleScore text r := by
  unfold applyRule ruleScore
  split
  next h =>
    rw [List.isEmpty_iff] at h
    rw [h]
    simp [jsSetDedup]
  next h => rw [foldl_applyMatch_score]

theorem applyRule_issues (text : String) (st : FoldState) (r : Rule) :
    (applyRule text st r).foundIssues
      = st.foundIssues ++ (jsSetDedup (jsMatch r.pattern text)).map
          (fun m => (⟨m, r.category, r.severity⟩ : Issue)) := by
  unfold applyRule
  split
  next h =>
    rw [List.isEmpty_iff] at h
    rw [h]
    simp [jsSetDedup]
  next h => rw [foldl_applyMatch_issues]

theorem foldl_applyRule_score (text : String) (rules : List Rule) (st : FoldState) :
    (rules.foldl (applyRule text) st).shadinessScore
      = st.shadinessScore + (rules.map (ruleScore text)).sum := by
  induction rules generalizing st with
  | nil => simp
  | cons r rs ih =>
      rw [List.foldl_cons, ih, applyRule_score, List.map_cons, List.sum_cons,
        Nat.add_assoc]

theorem foldl_applyRule_issues (text : String) (rules : List Rule) (st : FoldState) :
    (rules.foldl (applyRule text) st).foundIssues
      = st.foundIssues ++ (rules.map (fun r => (jsSetDedup (jsMatch r.pattern text)).map
          (fun m => (⟨m, r.category, r.severity⟩ : Issue)))).flatten := by
  induction rules generalizing st with
  | nil => simp
  | cons r rs ih =>
      rw [List.foldl_cons, ih, applyRule_issues]
      simp

theorem fallbackAnalyze_score (text : String) :
    (fallbackAnalyze text).shadinessScore = some ((min 100 (rawScore text) : Nat) : Int) := by
  unfold fallbackAnalyze
  simp only [foldl_applyRule_score, rawScore, Nat.zero_add]

theorem fallbackAnalyze_risky (text : String) :
    (fallbackAnalyze text).riskyPhrases
      = (riskPatterns.map (fun r => jsSetDedup (jsMatch r.pattern text))).flatten := by
  unfold fallbackAnalyze
  simp only [foldl_applyRule_issues, List.nil_append, List.map_flatten, List.map_map]
  exact congrArg List.flatten (List.map_congr_left (fun r _ => by simp [Function.comp_def]))

theorem fallbackAnalyze_score_range (text : String) :
    ∃ s, (fallbackAnalyze text).shadinessScore = some s ∧ 0 ≤ s ∧ s ≤ 100 := by
  refine ⟨((min 100 (rawScore text) : Nat) : Int), fallbackAnalyze_score text,
    by exact_mod_cast Nat.zero_le _, ?_⟩
  exact_mod_cast Nat.min_le_left 100 (rawScore text)

theorem jsSetDedup_aux_nodup (xs : List String) (acc : List String) (h : acc.Nodup) :
    (xs.foldl (fun acc x => if x ∈ acc then acc else acc ++ [x]) acc).Nodup := by
  induction xs generalizing acc with
  | nil => simpa using h
  | cons x xs ih =>
      rw [List.foldl_cons]
      by_cases hx : x ∈ acc
      · rw [if_pos hx]
        exact ih acc h
      · rw [if_neg hx]
        refine ih (acc ++ [x]) ?_
        simp [List.nodup_append, h, hx]

theorem jsSetDedup_nodup (xs : List String) : (jsSetDedup xs).Nodup :=
  jsSetDedup_aux_nodup xs [] List.nodup_nil

/-! ## Helper lemmas about the remote adapter and the orchestrator -/

theorem analyzeWithGPT_ok_eq (resp : RemoteResponse) (j : Json)
    (hok : resp.ok = true) (hc : resp.content = some (ContentData.json j)) :
    analyzeWithGPT resp = Except.ok (j, jsAdjustedScore j) := by
  simp [analyzeWithGPT, hok, hc]

theorem analyzeWithGPT_ok_inv (resp : RemoteResponse) (g : GPTResultJs)
    (h : analyzeWithGPT resp = Except.ok g) :
    resp.ok = true ∧ resp.content = some (ContentData.json g.1)
      ∧ g.2 = jsAdjustedScore g.1 := by
  unfold analyzeWithGPT at h
  split at h
  · simp at h
  next hcond =>
    simp only [Bool.not_eq_true', Bool.not_eq_false] at hcond
    split at h
    · simp at h
    · simp at h
    next result heq =>
      injection h with h2
      subst h2
      exact ⟨hcond, heq, rfl⟩

theorem isNum_eq_true {o : Option Json} (h : isNum o = true) :
    ∃ n, o = some (Json.num n) := by
  rcases o with _ | j
  · simp [isNum] at h
  · cases j
    case num n => exact ⟨n, rfl⟩
    all_goals simp [isNum] at h

theorem optMapGetD_eq_true {o : Option (List Json)} {f : List Json → Bool}
    (h : ((o.map f).getD false) = true) : ∃ ps, o = some ps ∧ f ps = true := by
  rcases o with _ | ps
  · simp at h
  · exact ⟨ps, rfl, by simpa using h⟩

theorem asArr_eq_some {o : Option Json} {ps : List Json} (h : asArr o = some ps) :
    o = some (Json.arr ps) := by
  rcases o with _ | j
  · simp [asArr] at h
  · cases j
    case arr xs => simpa [asArr] using congrArg (Option.map Json.arr) h
    all_goals simp [asArr] at h

theorem validGPTJson_shape (j : Json) (h : validGPTJson j = true) :
    (∃ n, getField j "score" = some (Json.num n)) ∧
    (∃ ps, getField j "phrases" = some (Json.arr ps)) := by
  unfold validGPTJson at h
  simp only [Bool.and_eq_true] at h
  obtain ⟨⟨⟨hnum, _⟩, hph⟩, _⟩ := h
  obtain ⟨ps, hps, _⟩ := optMapGetD_eq_true hph
  exact ⟨isNum_eq_true hnum, ⟨ps, asArr_eq_some hps⟩⟩

theorem jsAdjustedScore_range (j : Json) (n : Int)
    (hs : getField j "score" = some (Json.num n)) (h0 : 0 ≤ n) (h1 : n ≤ 100) :
    ∃ s, jsAdjustedScore j = some s ∧ 0 ≤ s ∧ s ≤ 100 := by
  unfold jsAdjustedScore
  rw [hs]
  split_ifs
  · exact ⟨_, rfl, le_min (by norm_num) (by omega), min_le_left _ _⟩
  · exact ⟨_, rfl, le_max_left _ _, max_le (by norm_num) (by omega)⟩
  · exact ⟨n, rfl, h0, h1⟩

theorem convertGPT_eq (g : GPTResultJs) (ps : List Json)
    (hp : getField g.1 "phrases" = some (Json.arr ps)) :
    convertGPT g = some
      { shadinessScore := g.2,
        reasoning := jsDisplay (getField g.1 "reasoning"),
        categories := gptCategories ps,
        riskyPhrases := ps.map (fun p => jsDisplay (getField p "text")),
        gptAnalysis := some g } := by
  unfold convertGPT
  rw [hp]

theorem parseEscapedBody_escape (cs : List Char) :
    parseEscapedBody
      (cs.foldr (fun c acc => if isRegexMeta c then '\\' :: c :: acc else c :: acc) [])
      = some cs := by
  induction cs with
  | nil => rfl
  | cons c cs ih =>
      rw [List.foldr_cons]
      by_cases hc : isRegexMeta c = true
      · rw [if_pos hc]
        rw [show ∀ rest, parseEscapedBody ('\\' :: c :: rest)
              = (parseEscapedBody rest).map (fun l => c :: l) from fun _ => rfl]
        rw [ih]
        rfl
      · rw [if_neg hc]
        have hcb : ¬ c = '\\' := by
          intro hceq
          rw [hceq] at hc
          exact hc rfl
        rw [parseEscapedBody.eq_def]
        simp only []
        rw [if_neg hcb, if_neg hc, ih]
        rfl

theorem mkRegexLiteral_escape (p : String) :
    mkRegexLiteral (escapeRegExp p) = some p.data := by
  unfold mkRegexLiteral escapeRegExp
  exact parseEscapedBody_escape p.data

theorem highlight_fold_eq (phrases : List String) (acc : String) :
    phrases.foldl (fun acc phrase =>
      match mkRegexLiteral (escapeRegExp phrase) with
      | some lit => String.mk (replaceAllCI lit acc.data)
      | none => acc) acc
    = phrases.foldl (fun acc phrase => String.mk (replaceAllCI phrase.data acc.data)) acc := by
  induction phrases generalizing acc with
  | nil => rfl
  | cons p ps ih =>
      rw [List.foldl_cons, List.foldl_cons, mkRegexLiteral_escape]
      exact ih _

/-! ## Claim theorems -/

/-- Claim C1, counterexample: a structurally valid remote response whose raw
score is 150 with exactly three returned phrases makes the analysis entry
point return an `AnalysisResult` whose shadinessScore is 150, outside the
claimed 0..100 range — the adjustment heuristic does not clamp a
pass-through score. -/
theorem c1_counterexample_unclamped_remote_score :
    outcomeScore (handleAnalyze "terms" "key" resp150) = some (some 150) ∧
    validGPTJson j150 = true ∧ ¬ ((150 : Int) ≤ 100) :=
  ⟨rfl, rfl, by decide⟩

/-- Claim C1, amended: every result of the rule-based path has an integer
shadinessScore within 0..100, and so does every result of the remote path
provided the parsed remote payload carries a numeric raw score within
0..100; a structurally valid remote payload whose raw score lies outside
0..100 with three or four returned phrases is passed through unclamped. -/
theorem c1_amended_score_range (termsText apiKey : String) (resp : RemoteResponse)
    (hv : ∀ j, resp.content = some (ContentData.json j) →
      validGPTJson j = true ∧
        ∀ n, getField j "score" = some (Json.num n) → 0 ≤ n ∧ n ≤ 100) :
    ∀ r note, handleAnalyze termsText apiKey resp = Outcome.done r note →
      ∃ s, r.shadinessScore = some s ∧ 0 ≤ s ∧ s ≤ 100 := by
  intro r note h
  unfold handleAnalyze at h
  split at h
  · simp at h
  · split at h
    · injection h with hr hn
      subst hr
      exact fallbackAnalyze_score_range termsText
    · split at h
      next g heq =>
        split at h
        next result heqc =>
          injection h with hr hn
          subst hr
          obtain ⟨hok, hc, hsc⟩ := analyzeWithGPT_ok_inv resp g heq
          obtain ⟨hvj, hrange⟩ := hv g.1 hc
          obtain ⟨⟨n, hnum⟩, ⟨ps, hps⟩⟩ := validGPTJson_shape g.1 hvj
          obtain ⟨h0, h1⟩ := hrange n hnum
          rw [convertGPT_eq g ps hps] at heqc
          injection heqc with hres
          subst hres
          show ∃ s, g.2 = some s ∧ 0 ≤ s ∧ s ≤ 100
          rw [hsc]
          exact jsAdjustedScore_range g.1 n hnum h0 h1
        next heqc =>
          injection h with hr hn
          subst hr
          exact fallbackAnalyze_score_range termsText
      next e heq =>
        injection h with hr hn
        subst hr
        exact fallbackAnalyze_score_range termsText

/-- Witness for the amended C1 theorem at a concrete input: no credential,
plain text, rule-based path. -/
theorem c1_amended_score_range_witness :
    ∃ s, (fallbackAnalyze "plain text").shadinessScore = some s ∧ 0 ≤ s ∧ s ≤ 100 :=
  c1_amended_score_range "plain text" "" respNoContent
    (fun j hj => Option.noConfusion hj)
    (fallbackAnalyze "plain text") Notice.basicNoKey rfl

/-- Claim C2: with a non-empty input and a supplied credential, any failure
of the remote adapter makes `handleAnalyze` return exactly the rule-based
result `fallbackAnalyze termsText` together with the degraded-mode notice;
the orchestrator is a total function, so the remote failure never escapes
as an exception. -/
theorem c2_fallback_on_remote_failure (termsText apiKey : String)
    (resp : RemoteResponse)
    (ht : ¬ jsTrim termsText = "") (hk : ¬ jsTrim apiKey = "")
    (hf : remoteFailed resp = true) :
    handleAnalyze termsText apiKey resp
      = Outcome.done (fallbackAnalyze termsText) Notice.degraded := by
  unfold handleAnalyze
  rw [if_neg ht, if_neg hk]
  unfold remoteFailed at hf
  cases h : analyzeWithGPT resp with
  | error e => rfl
  | ok g => rw [h] at hf; simp at hf

/-- Witness for C2 at a concrete input: a credential is supplied and the
endpoint answers with a non-success status. -/
theorem c2_fallback_on_remote_failure_witness :
    handleAnalyze "some legal terms" "sk-key" respFail
      = Outcome.done (fallbackAnalyze "some legal terms") Notice.degraded :=
  c2_fallback_on_remote_failure "some legal terms" "sk-key" respFail
    (by decide) (by decide) rfl

/-- Claim C3: the rule-based shadinessScore equals the clamp to 0..100 of
the severity-weighted sum over all rules and their surviving unique matches
(25 high, 15 medium, 10 low), with no cap during accumulation, and it
always lies within 0..100. -/
theorem c3_classifier_score_clamped_sum (text : String) :
    (fallbackAnalyze text).shadinessScore = some ((min 100 (rawScore text) : Nat) : Int) ∧
    ∃ s, (fallbackAnalyze text).shadinessScore = some s ∧ 0 ≤ s ∧ s ≤ 100 :=
  ⟨fallbackAnalyze_score text, fallbackAnalyze_score_range text⟩

/-- Claim C4, counterexample: matches are deduplicated by exact,
case-sensitive identity, not case-insensitively — the same phrase repeated
in a different letter casing contributes a second scoring unit (score 50,
two risky phrases, where the claim predicts 25 and one). -/
theorem c4_counterexample_case_sensitive_dedup :
    (fallbackAnalyze "you agree You Agree").shadinessScore = some 50 ∧
    (fallbackAnalyze "you agree You Agree").riskyPhrases
      = ["you agree", "You Agree"] := by
  constructor <;> decide

/-- Claim C4, amended: within each rule, matches are deduplicated by exact
string identity before scoring, so each distinct matched string contributes
exactly one scoring unit for that rule (identical repeats collapse, but
casings that differ survive as separate units). -/
theorem c4_amended_exact_dedup (text : String) :
    (fallbackAnalyze text).riskyPhrases
      = (riskPatterns.map (fun r => jsSetDedup (jsMatch r.pattern text))).flatten ∧
    ∀ r : Rule, (jsSetDedup (jsMatch r.pattern text)).Nodup :=
  ⟨fallbackAnalyze_risky text, fun r => jsSetDedup_nodup (jsMatch r.pattern text)⟩

/-- Claim C5: every phrase is matched as a literal string — escaping the
regex metacharacters before compiling makes the highlighter behave exactly
like literal replacement — and on the concrete example the literal
substring with the dollar sign and parentheses is wrapped without the
parenthesis acting as a group. -/
theorem c5_phrases_matched_literally :
    (∀ text phrases, highlightText true text phrases = literalHighlight text phrases) ∧
    highlightText true "Price: $5 (final)." ["$5 (final)"]
      = "Price: <mark class=\"bg-yellow-300 px-1 rounded\">$5 (final)</mark>." := by
  constructor
  · intro text phrases
    cases phrases with
    | nil => rfl
    | cons p ps => exact highlight_fold_eq (p :: ps) text
  · decide

/-- Claim C7: on a remote response whose parsed payload carries a numeric
score and a phrases array, the adapter returns the score adjusted exactly
as claimed: plus 10 clamped at 100 for at least five phrases, minus 15
clamped at 0 for at most two, unchanged otherwise. -/
theorem c7_score_adjustment (resp : RemoteResponse) (j : Json) (n : Int)
    (ps : List Json)
    (hok : resp.ok = true) (hc : resp.content = some (ContentData.json j))
    (hs : getField j "score" = some (Json.num n))
    (hp : getField j "phrases" = some (Json.arr ps)) :
    ∃ g, analyzeWithGPT resp = Except.ok g ∧
      g.2 = some (if ps.length ≥ 5 then min 100 (n + 10)
                  else if ps.length ≤ 2 then max 0 (n - 15) else n) := by
  refine ⟨(j, jsAdjustedScore j), analyzeWithGPT_ok_eq resp j hok hc, ?_⟩
  show jsAdjustedScore j = _
  unfold jsAdjustedScore jsIssueCount
  rw [hs, hp]
  split_ifs <;> rfl

/-- Witness for C7 at a concrete input: five phrases and raw score 95 give
the adjusted score min 100 (95 + 10) = 100. -/
theorem c7_score_adjustment_witness :
    ∃ g, analyzeWithGPT respW7 = Except.ok g ∧ g.2 = some 100 := by
  obtain ⟨g, h1, h2⟩ := c7_score_adjustment respW7 jW7 95 phrasesW7 rfl rfl rfl rfl
  refine ⟨g, h1, ?_⟩
  rw [h2]
  decide

/-- Claim C8, counterexample: riskyPhrases keeps two entries that differ
only in letter casing, so the claimed whole-result case-insensitive
deduplication does not hold. -/
theorem c8_counterexample_case_insensitive_duplicate :
    (fallbackAnalyze "You Agree you agree").riskyPhrases
      = ["You Agree", "you agree"] ∧
    ("You Agree").data.map Char.toLower = ("you agree").data.map Char.toLower := by
  constructor <;> decide

/-- Claim C8, amended: riskyPhrases is the rule-by-rule concatenation of the
matched substrings, where the blocks are exactly the per-rule match lists
deduplicated under exact string identity, in catalog order, and each block
is duplicate-free under exact identity; no deduplication happens across
rules or up to letter casing. -/
theorem c8_amended_per_rule_blocks (text : String) :
    ∃ blocks : List (List String),
      blocks = riskPatterns.map (fun r => jsSetDedup (jsMatch r.pattern text)) ∧
      (fallbackAnalyze text).riskyPhrases = blocks.flatten ∧
      blocks.length = riskPatterns.length ∧
      ∀ b ∈ blocks, b.Nodup := by
  refine ⟨riskPatterns.map (fun r => jsSetDedup (jsMatch r.pattern text)), rfl,
    fallbackAnalyze_risky text, by simp, ?_⟩
  intro b hb
  simp only [List.mem_map] at hb
  obtain ⟨r, _, rfl⟩ := hb
  exact jsSetDedup_nodup _

/-- Claim C9, counterexample: with identical text and phrase-list arguments,
the output of `highlightText` changes with the hidden `highlightRisky`
component state, so it is not a function of exactly its two arguments. -/
theorem c9_counterexample_hidden_toggle :
    highlightText true "you agree" ["you agree"]
      ≠ highlightText false "you agree" ["you agree"] := by
  decide

/-- Claim C9, amended: `highlightText` is a pure function of its two
arguments and the `highlightRisky` toggle; with an empty phrase list (for
either toggle state), or with the toggle off, it returns the source text
unchanged. -/
theorem c9_amended_identity_cases (highlightRisky : Bool) (text : String)
    (phrases : List String) :
    highlightText highlightRisky text [] = text ∧
    highlightText false text phrases = text := by
  constructor
  · unfold highlightText
    simp
  · unfold highlightText
    simp

